import Mathlib

/-!
Verification development for the dns-benchmark repository.

The Go sources are shallowly embedded: machine integers (`int`,
`time.Duration` = nanoseconds as `int64`) become `Int`; `float64`
arithmetic is modelled exactly over `ℚ`/`ℝ`; Go slices become `List`;
Go `*bool`/`*time.Duration` fields become `Option`; fallible functions
return `Except`/`Option`.  Strings are ASCII and Go's byte-wise string
functions are modelled over `List Char`.
-/

namespace DnsBench

/-! ## Go stdlib string helpers, modelled over `List Char` -/

/-- First index of a character in a list, if present. -/
def listIndexOfChar (l : List Char) (c : Char) : Option Nat :=
  match l with
  | [] => none
  | x :: rest =>
    if x = c then some 0
    else (listIndexOfChar rest c).map (· + 1)

/-- Last index of a character in a list, if present. -/
def listLastIndexOfChar (l : List Char) (c : Char) : Option Nat :=
  match l with
  | [] => none
  | x :: rest =>
    match listLastIndexOfChar rest c with
    | some i => some (i + 1)
    | none => if x = c then some 0 else none

/-- Whether a character list contains a character (Go strings.Contains for one char). -/
def listContainsChar (l : List Char) (c : Char) : Bool :=
  l.any (· = c)

/-- Go strings.ContainsAny: does `l` contain any character of `cutset`. -/
def goContainsAny (l : List Char) (cutset : List Char) : Bool :=
  l.any (fun c => cutset.contains c)

/-- First index at which `pat` occurs as a contiguous sublist of `l` (Go strings.Index). -/
def indexOfSublist (l pat : List Char) : Option Nat :=
  match l with
  | [] => if pat = [] then some 0 else none
  | _ :: rest =>
    if pat.isPrefixOf l then some 0
    else (indexOfSublist rest pat).map (· + 1)

/-- Go strings.Split on a single-character separator: `Split("", sep) = [""]`. -/
def splitOnCharList (c : Char) : List Char → List (List Char)
  | [] => [[]]
  | x :: rest =>
    let r := splitOnCharList c rest
    if x = c then [] :: r
    else
      match r with
      | [] => [[x]]
      | h :: t => (x :: h) :: t

/-- Go strings.SplitN(s, sep, 2) for a one-character separator. -/
def splitN2Char (c : Char) (l : List Char) : List (List Char) :=
  match listIndexOfChar l c with
  | none => [l]
  | some i => [l.take i, l.drop (i + 1)]

/-- Go strings.Trim with a cutset: drop cutset characters from both ends. -/
def trimCutset (cutset : List Char) (l : List Char) : List Char :=
  ((l.dropWhile (fun c => cutset.contains c)).reverse.dropWhile
    (fun c => cutset.contains c)).reverse

/-- Go strings.TrimSpace (ASCII whitespace suffices for the inputs modelled here). -/
def goTrimSpace (l : List Char) : List Char :=
  ((l.dropWhile Char.isWhitespace).reverse.dropWhile Char.isWhitespace).reverse

/-- Decimal digit run to a natural number. -/
def digitsToNat (l : List Char) : Nat :=
  l.foldl (fun acc c => acc * 10 + (c.toNat - 48)) 0

/-- Hexadecimal digit value of an ASCII character (0 for non-hex input). -/
def hexDigitVal (c : Char) : Nat :=
  if '0' ≤ c ∧ c ≤ '9' then c.toNat - 48
  else if 'a' ≤ c ∧ c ≤ 'f' then c.toNat - 87
  else if 'A' ≤ c ∧ c ≤ 'F' then c.toNat - 55
  else 0

/-- Whether a character is an ASCII hexadecimal digit. -/
def isHexDigitChar (c : Char) : Bool :=
  ('0' ≤ c && c ≤ '9') || ('a' ≤ c && c ≤ 'f') || ('A' ≤ c && c ≤ 'F')

/-- Hexadecimal digit run to a natural number. -/
def hexToNat (l : List Char) : Nat :=
  l.foldl (fun acc c => acc * 16 + hexDigitVal c) 0

/-! ## Go net.IP model: `net.ParseIP` and `IP.To4` -/

/-- Result of Go `net.ParseIP`: an IPv4 address or an IPv6 address
(eight 16-bit groups). -/
inductive GoIP
  | v4 (a b c d : Nat)
  | v6 (groups : List Nat)
  deriving Repr, DecidableEq

/-- One decimal field of a dotted-quad IPv4 address: 1-3 digits, value at
most 255, no leading zeros (Go 1.17+ semantics). -/
def parseV4Field (l : List Char) : Option Nat :=
  if l = [] then none
  else if 3 < l.length then none
  else if l.all Char.isDigit then
    if 1 < l.length ∧ l.head? = some '0' then none
    else
      let v := digitsToNat l
      if v ≤ 255 then some v else none
  else none

/-- Go IPv4 parsing: exactly four dot-separated decimal fields. -/
def goParseIPv4 (s : List Char) : Option GoIP :=
  match (splitOnCharList '.' s).mapM parseV4Field with
  | some [a, b, c, d] => some (.v4 a b c d)
  | _ => none

/-- One hexadecimal group of an IPv6 address: 1-4 hex digits. -/
def parseHexGroup (l : List Char) : Option Nat :=
  if l = [] ∨ 4 < l.length then none
  else if l.all isHexDigitChar then some (hexToNat l) else none

/-- Parse colon-separated IPv6 pieces into 16-bit groups; an embedded
dotted-quad IPv4 address is allowed only as the final piece. -/
def parseV6Parts : List (List Char) → Option (List Nat)
  | [] => some []
  | [last] =>
    if listContainsChar last '.' then
      match goParseIPv4 last with
      | some (.v4 a b c d) => some [a * 256 + b, c * 256 + d]
      | _ => none
    else (parseHexGroup last).map (fun v => [v])
  | p :: rest =>
    match parseHexGroup p, parseV6Parts rest with
    | some v, some vs => some (v :: vs)
    | _, _ => none

/-- Parse colon-separated IPv6 pieces that must all be hexadecimal groups
(pieces before a `::` ellipsis; no embedded IPv4 allowed there). -/
def parseV6HexParts : List (List Char) → Option (List Nat)
  | [] => some []
  | p :: rest =>
    match parseHexGroup p, parseV6HexParts rest with
    | some v, some vs => some (v :: vs)
    | _, _ => none

/-- Go IPv6 parsing: at most one `::` ellipsis expanding to at least one
zero group, eight groups total, optional embedded IPv4 tail; zones are
rejected by `net.ParseIP`. -/
def goParseIPv6 (s : List Char) : Option GoIP :=
  if listContainsChar s '%' then none
  else
    match indexOfSublist s [':', ':'] with
    | none =>
      match parseV6Parts (splitOnCharList ':' s) with
      | some groups => if groups.length = 8 then some (.v6 groups) else none
      | none => none
    | some i =>
      let left := s.take i
      let right := s.drop (i + 2)
      let leftGroups := if left = [] then some [] else parseV6HexParts (splitOnCharList ':' left)
      let rightGroups := if right = [] then some [] else parseV6Parts (splitOnCharList ':' right)
      match leftGroups, rightGroups with
      | some lg, some rg =>
        if lg.length + rg.length ≤ 7 then
          some (.v6 (lg ++ List.replicate (8 - (lg.length + rg.length)) 0 ++ rg))
        else none
      | _, _ => none

/-- Go `net.ParseIP`: dispatch on the first of `.`, `:`, `%` in the string. -/
def goParseIP (s : String) : Option GoIP :=
  let l := s.toList
  match l.find? (fun c => c = '.' ∨ c = ':' ∨ c = '%') with
  | some c =>
    if c = '.' then goParseIPv4 l
    else if c = ':' then goParseIPv6 l
    else none
  | none => none

/-- Go `IP.To4() != nil`: true for IPv4 addresses and IPv4-mapped IPv6
addresses (first five groups zero, sixth group 0xffff). -/
def goIPTo4NonNil : GoIP → Bool
  | .v4 _ _ _ _ => true
  | .v6 gs =>
    match gs with
    | [a, b, c, d, e, f, _, _] =>
      a = 0 && b = 0 && c = 0 && d = 0 && e = 0 && f = 65535
    | _ => false

/-- Go `strconv.Atoi` succeeds: optional sign, one or more decimal digits,
value within the signed 64-bit range. -/
def goAtoiOk (s : String) : Bool :=
  let l := s.toList
  let signedDigits : Bool × List Char :=
    match l with
    | '+' :: rest => (true, rest)
    | '-' :: rest => (false, rest)
    | _ => (true, l)
  signedDigits.2 ≠ [] && signedDigits.2.all Char.isDigit &&
    (if signedDigits.1 then digitsToNat signedDigits.2 ≤ 9223372036854775807
     else digitsToNat signedDigits.2 ≤ 9223372036854775808)

/-! ## pkg/config: endpoint model (`ProtocolType`, `ServerInfo`, `Config`) -/

/-- config.ProtocolType. -/
inductive ProtocolType
  | udp
  | tcp
  | dot
  | doh
  | doq
  deriving Repr, DecidableEq

/-- config.ServerInfo. -/
structure ServerInfo where
  Address : String
  Protocol : ProtocolType
  Hostname : String
  DoHPath : String := ""
  deriving Repr, DecidableEq

/-- The fields of config.Config consumed by the embedded functions. -/
structure Config where
  numQueries : Int := 4
  concurrency : Int := 4
  domain : String := "example.com"
  accuracyCheckFile : String := ""
  accuracyCheckIP : String := ""
  deriving Repr, DecidableEq

/-! ## Go net.SplitHostPort / net.JoinHostPort -/

/-- Go `net.SplitHostPort`: the port starts after the last colon; a
bracketed host must close just before it; the port token itself is not
validated. -/
def goSplitHostPort (hostPort : String) : Except String (String × String) :=
  let s := hostPort.toList
  match listLastIndexOfChar s ':' with
  | none => .error "missing port in address"
  | some i =>
    if s.head? = some '[' then
      match listIndexOfChar s ']' with
      | none => .error "missing close bracket in address"
      | some e =>
        if e + 1 = s.length then .error "missing port in address"
        else if e + 1 = i then
          if listContainsChar (s.drop 1) '[' then .error "unexpected open bracket in address"
          else if listContainsChar (s.drop (e + 1)) ']' then
            .error "unexpected close bracket in address"
          else .ok (⟨(s.take e).drop 1⟩, ⟨s.drop (i + 1)⟩)
        else
          if s.get? (e + 1) = some ':' then .error "too many colons in address"
          else .error "missing port in address"
    else
      let host := s.take i
      if listContainsChar host ':' then .error "too many colons in address"
      else if listContainsChar s '[' then .error "unexpected open bracket in address"
      else if listContainsChar s ']' then .error "unexpected close bracket in address"
      else .ok (⟨host⟩, ⟨s.drop (i + 1)⟩)

/-- Go `net.JoinHostPort`: brackets are added when the host contains a
colon. -/
def goJoinHostPort (host port : String) : String :=
  if listContainsChar host.toList ':' then "[" ++ host ++ "]:" ++ port
  else host ++ ":" ++ port

/-! ## pkg/config: hostname validation and endpoint parsing -/

/-- One RFC-1123 label check of config.isValidHostname: 1-63 characters,
letters, digits or hyphens, not hyphen-edged. -/
def validLabel (label : List Char) : Bool :=
  if label.length = 0 || 63 < label.length then false
  else if label.head? = some '-' || label.getLast? = some '-' then false
  else label.all (fun r =>
    ('a' ≤ r && r ≤ 'z') || ('A' ≤ r && r ≤ 'Z') || ('0' ≤ r && r ≤ '9') || r = '-')

/-- config.isValidHostname: IP literals are accepted outright; a single
dot-free label other than "localhost" is accepted when it avoids a few
separator characters and is not an Atoi-parseable number; otherwise every
label must pass the RFC-1123 check. -/
def isValidHostname (hostname : String) : Bool :=
  if hostname = "" then false
  else if (goParseIP hostname).isSome then true
  else
    let l := hostname.toList
    if 253 < l.length then false
    else
      let labels := splitOnCharList '.' l
      if labels.length = 1 && hostname ≠ "localhost" then
        if goContainsAny l [' ', ':', '/', '\\'] then false
        else if goAtoiOk hostname then false
        else true
      else labels.all validLabel

/-- Modelled from the spec wording for C4: any IP literal is valid;
otherwise every dot-separated label is 1-63 characters of letters,
digits or hyphens and not hyphen-edged, the whole name is at most 253
characters, the name contains at least one dot unless it is literally
"localhost", and the name is not purely numeric. -/
def specValidHostname (hostname : String) : Bool :=
  if (goParseIP hostname).isSome then true
  else
    let l := hostname.toList
    let labels := splitOnCharList '.' l
    labels.all validLabel && l.length ≤ 253 &&
      (2 ≤ labels.length || hostname = "localhost") &&
      !(l ≠ [] && l.all Char.isDigit)

/-- Model of Go url.Parse restricted to https URLs, returning
`(Hostname(), Path)`: the authority runs to the first slash, question
mark or hash; userinfo up to the last at-sign is dropped; a port suffix
must be all digits; brackets around an IPv6 host are stripped. -/
def goURLParseHTTPS (s : String) : Except String (String × String) :=
  let rest := s.toList.drop 8
  let authority := rest.takeWhile (fun c => c ≠ '/' ∧ c ≠ '?' ∧ c ≠ '#')
  let afterAuthority := rest.dropWhile (fun c => c ≠ '/' ∧ c ≠ '?' ∧ c ≠ '#')
  let path := afterAuthority.takeWhile (fun c => c ≠ '?' ∧ c ≠ '#')
  let hostPort :=
    match listLastIndexOfChar authority '@' with
    | some i => authority.drop (i + 1)
    | none => authority
  if hostPort.head? = some '[' then
    match listIndexOfChar hostPort ']' with
    | none => .error "missing close bracket in URL host"
    | some e =>
      let port := hostPort.drop (e + 1)
      if port = [] then .ok (⟨(hostPort.take e).drop 1⟩, ⟨path⟩)
      else if port.head? = some ':' && (port.drop 1).all Char.isDigit then
        .ok (⟨(hostPort.take e).drop 1⟩, ⟨path⟩)
      else .error "invalid port in URL"
  else
    match listLastIndexOfChar hostPort ':' with
    | some i =>
      if (hostPort.drop (i + 1)).all Char.isDigit then .ok (⟨hostPort.take i⟩, ⟨path⟩)
      else .error "invalid port in URL"
    | none => .ok (⟨hostPort⟩, ⟨path⟩)

/-- A parsed endpoint together with whether the invalid-port warning was
printed on stderr. -/
structure ParsedServer where
  info : ServerInfo
  warnedInvalidPort : Bool
  deriving Repr, DecidableEq

/-- Final host validation and address assembly of parseServerString: an
invalid derived hostname is re-tried as a plain (non-To4) IPv6 literal
taken from the whole address part, otherwise the parse fails. -/
def finalizeServer (protocol : ProtocolType) (host port hostname addrPart : List Char)
    (warned : Bool) : Except String ParsedServer :=
  if isValidHostname ⟨hostname⟩ then
    .ok ⟨{ Address := goJoinHostPort ⟨host⟩ ⟨port⟩, Protocol := protocol,
           Hostname := ⟨hostname⟩ }, warned⟩
  else
    match goParseIP ⟨addrPart⟩ with
    | some ip =>
      if !goIPTo4NonNil ip then
        .ok ⟨{ Address := goJoinHostPort ⟨addrPart⟩ ⟨port⟩, Protocol := protocol,
               Hostname := ⟨addrPart⟩ }, warned⟩
      else .error "invalid host or IP address derived from input"
    | none => .error "invalid host or IP address derived from input"

/-- config.parseServerString: protocol detection by scheme prefix, DoH as
a full URL, host/port splitting with the transport default port when no
port was split off, the bad-port salvage attempt, and final hostname
validation. -/
def parseServerString (serverStr0 : String) : Except String ParsedServer :=
  let serverStr : List Char := goTrimSpace serverStr0.toList
  if serverStr = [] then .error "server string cannot be empty or only whitespace"
  else if ("https://".toList).isPrefixOf serverStr then
    match goURLParseHTTPS ⟨serverStr⟩ with
    | .error e => .error e
    | .ok (host, path) =>
      if host = "" then .error "invalid DoH URL, missing host"
      else if !isValidHostname host then .error "invalid hostname in DoH URL"
      else
        .ok ⟨{ Address := ⟨serverStr⟩, Protocol := .doh, Hostname := host,
               DoHPath := path }, false⟩
  else
    let udpStripped : List Char :=
      match indexOfSublist serverStr ("://".toList) with
      | some i =>
        if !(listContainsChar (serverStr.take i) ':') then serverStr.drop (i + 3)
        else serverStr
      | none => serverStr
    let detected : ProtocolType × List Char × List Char :=
      if ("tls://".toList).isPrefixOf serverStr then (.dot, "853".toList, serverStr.drop 6)
      else if ("quic://".toList).isPrefixOf serverStr then (.doq, "853".toList, serverStr.drop 7)
      else if ("tcp://".toList).isPrefixOf serverStr then (.tcp, "53".toList, serverStr.drop 6)
      else (.udp, "53".toList, udpStripped)
    let protocol := detected.1
    let defaultPort := detected.2.1
    let addrPart := detected.2.2
    match goSplitHostPort ⟨addrPart⟩ with
    | .ok (host0, port0) =>
      let hostname0 : List Char :=
        if ("[".toList).isPrefixOf host0.toList && host0.toList.getLast? = some ']' then
          trimCutset ['[', ']'] host0.toList
        else host0.toList
      finalizeServer protocol host0.toList port0.toList hostname0 addrPart false
    | .error _ =>
      let hostname1 : List Char :=
        if ("[".toList).isPrefixOf addrPart && addrPart.getLast? = some ']' then
          trimCutset ['[', ']'] addrPart
        else addrPart
      let salvageCond : Bool :=
        match goParseIP ⟨hostname1⟩ with
        | none => true
        | some ip => goIPTo4NonNil ip
      let salvaged : List Char × List Char × Bool :=
        if listContainsChar addrPart ':' && salvageCond then
          match splitN2Char ':' addrPart with
          | [p0, _] =>
            if isValidHostname ⟨p0⟩ then (p0, p0, true) else (addrPart, hostname1, false)
          | _ => (addrPart, hostname1, false)
        else (addrPart, hostname1, false)
      finalizeServer protocol salvaged.1 defaultPort salvaged.2.1 addrPart salvaged.2.2

/-! ## pkg/analysis: per-server results and latency statistics -/

/-- analysis.ServerResult; latencies are nanosecond counts, the probe
fields are Go pointers modelled as `Option`, reliability is the exact
value of the `float64` percentage. -/
structure ServerResult where
  serverAddress : String := ""
  cachedLatencies : List Int := []
  uncachedLatencies : List Int := []
  errors : Int := 0
  totalQueries : Int := 0
  supportsDNSSEC : Option Bool := none
  hijacksNXDOMAIN : Option Bool := none
  blocksRebinding : Option Bool := none
  isAccurate : Option Bool := none
  dotcomLatency : Option Int := none
  avgCachedLatency : Int := 0
  stdDevCachedLatency : Int := 0
  avgUncachedLatency : Int := 0
  stdDevUncachedLatency : Int := 0
  reliability : ℚ := 0
  deriving Repr, DecidableEq

/-- Go `math.Round` (round half away from zero) on an exact rational. -/
def goRound (q : ℚ) : Int :=
  if q < 0 then -⌊-q + 1/2⌋ else ⌊q + 1/2⌋

/-- Go `math.Round` on a real argument (used after `math.Sqrt`). -/
noncomputable def goRoundReal (x : ℝ) : Int :=
  if x < 0 then -⌊-x + 1/2⌋ else ⌊x + 1/2⌋

/-- analysis.calculateAverage: 0 on an empty list, otherwise the rounded
mean of the nanosecond values. -/
def calculateAverage (latencies : List Int) : Int :=
  if latencies.length = 0 then 0
  else goRound ((latencies.sum : ℚ) / (latencies.length : ℚ))

/-- analysis.calculateStdDev: 0 below two samples, otherwise the rounded
square root of the sample variance (denominator `n-1`) around the given
precomputed average. -/
noncomputable def calculateStdDev (latencies : List Int) (average : Int) : Int :=
  if latencies.length < 2 then 0
  else
    let avgNano : ℝ := (average : ℝ)
    let sumOfSquares : ℝ := (latencies.map (fun (l : Int) => ((l : ℝ) - avgNano) ^ 2)).sum
    let variance : ℝ := sumOfSquares / ((latencies.length : ℝ) - 1)
    goRoundReal (Real.sqrt variance)

/-- Modelled from the spec: `stddev(xs) = round( sqrt( Σ(x − mean)² / (|xs|−1) ) )`
when `|xs| ≥ 2` (sample standard deviation), else 0.  Stated for
comparison against `calculateStdDev`. -/
noncomputable def specSampleStdDev (xs : List Int) (mean : Int) : Int :=
  if 2 ≤ xs.length then
    goRoundReal (Real.sqrt
      ((xs.map (fun (x : Int) => ((x : ℝ) - (mean : ℝ)) ^ 2)).sum / ((xs.length : ℝ) - 1)))
  else 0

/-! ## pkg/dnsquery: query results and check predicates -/

/-- One resource record of a DNS answer: an A record carrying its rendered
IP string, or any other record type. -/
inductive DnsRR
  | a (ipString : String)
  | other
  deriving Repr, DecidableEq

/-- dns.RcodeSuccess. -/
def rcodeSuccess : Nat := 0

/-- dns.RcodeNameError (NXDOMAIN). -/
def rcodeNameError : Nat := 3

/-- The parts of a dns.Msg response inspected by the check helpers. -/
structure DnsMsg where
  rcode : Nat
  answer : List DnsRR
  authenticatedData : Bool
  deriving Repr, DecidableEq

/-- dnsquery.QueryResult: latency in nanoseconds, optional parsed
response, optional error. -/
structure QueryResult where
  latency : Int := 0
  response : Option DnsMsg := none
  error : Option String := none
  deriving Repr, DecidableEq

/-- dnsquery.checkADFlag: the Authenticated Data flag of a non-error
response, false on any error or missing response. -/
def checkADFlag (result : QueryResult) : Bool :=
  match result.error, result.response with
  | some _, _ => false
  | none, none => false
  | none, some resp => resp.authenticatedData

/-- dnsquery.checkNXDOMAINHijack: true when a deliberately nonexistent
name came back NOERROR with a non-empty answer. -/
def checkNXDOMAINHijack (result : QueryResult) : Bool :=
  match result.error, result.response with
  | some _, _ => false
  | none, none => false
  | none, some resp =>
    if resp.rcode = rcodeNameError then false
    else if resp.rcode = rcodeSuccess ∧ 0 < resp.answer.length then true
    else false

/-- dnsquery.checkRebindingProtection: any error, missing response,
non-success rcode or empty answer counts as protected. -/
def checkRebindingProtection (result : QueryResult) : Bool :=
  match result.error, result.response with
  | some _, _ => true
  | none, none => true
  | none, some resp =>
    if resp.rcode ≠ rcodeSuccess then true
    else if resp.answer.length = 0 then true
    else false

/-- dnsquery.checkResponseAccuracy: some A record of a successful answer
matches the expected IP string. -/
def checkResponseAccuracy (result : QueryResult) (expectedIP : String) : Bool :=
  match result.error, result.response with
  | some _, _ => false
  | none, none => false
  | none, some resp =>
    if resp.rcode ≠ rcodeSuccess then false
    else resp.answer.any (fun rr =>
      match rr with
      | .a ip => ip = expectedIP
      | .other => false)

/-- dnsquery.processCheckResult: apply one check job result to the
server's accumulator (the result-drain step for probe jobs). -/
def processCheckResult (cfg : Config) (sr : ServerResult) (checkType : String)
    (result : QueryResult) : ServerResult :=
  match checkType with
  | "dnssec" => { sr with supportsDNSSEC := some (checkADFlag result) }
  | "nxdomain" => { sr with hijacksNXDOMAIN := some (checkNXDOMAINHijack result) }
  | "rebinding" => { sr with blocksRebinding := some (checkRebindingProtection result) }
  | "accuracy" => { sr with isAccurate := some (checkResponseAccuracy result cfg.accuracyCheckIP) }
  | "dotcom" =>
    if result.error = none then { sr with dotcomLatency := some result.latency }
    else sr
  | _ => sr

/-! ## pkg/dnsquery: latency phase job scheduling -/

/-- analysis.QueryType. -/
inductive LatencyQueryType
  | cached
  | uncached
  deriving Repr, DecidableEq

/-- dnsquery.queryJob, restricted to the fields relevant to latency jobs. -/
structure QueryJob where
  server : ServerInfo
  domain : String
  queryType : LatencyQueryType
  deriving Repr, DecidableEq

/-- dnsquery.calculateLatencyQueryCounts: the cached/uncached split of the
configured total query count.  The division is only reached for
`totalQueries ≥ 4`, where Go's truncating division and Lean's integer
division coincide. -/
def calculateLatencyQueryCounts (totalQueries : Int) : Int × Int :=
  if totalQueries < 1 then (0, 0)
  else if totalQueries = 1 then (0, 1)
  else if totalQueries = 2 then (1, 1)
  else if totalQueries = 3 then (1, 2)
  else
    let numCached := totalQueries / 2
    (numCached, totalQueries - numCached)

/-- The latency jobs enqueued for one server: `numCached` jobs on the
configured cached domain followed by `numUncached` jobs on randomized
names (the random source is abstracted as an indexed name supply). -/
def latencyJobsForServer (server : ServerInfo) (cachedDomain : String)
    (uncachedName : Nat → String) (numCached numUncached : Nat) : List QueryJob :=
  List.replicate numCached ⟨server, cachedDomain, .cached⟩ ++
    (List.range numUncached).map (fun i => ⟨server, uncachedName i, .uncached⟩)

/-- dnsquery.runLatencyBenchmark, job-construction part: the full job list
enqueued for the latency phase (empty when the total job count is zero,
mirroring the early return). -/
def runLatencyBenchmarkJobs (servers : List ServerInfo) (numQueries : Int)
    (cachedDomain : String) (uncachedName : Nat → String) : List QueryJob :=
  let numCached := (calculateLatencyQueryCounts numQueries).1.toNat
  let numUncached := (calculateLatencyQueryCounts numQueries).2.toNat
  if servers.length * (numCached + numUncached) = 0 then []
  else servers.flatMap (fun s => latencyJobsForServer s cachedDomain uncachedName numCached numUncached)

/-- dnsquery.runLatencyBenchmark, worker-spawn part: no workers when there
are no jobs; otherwise the configured concurrency clamped to at least 1
and at most the job count. -/
def latencyWorkers (concurrencyCfg : Int) (totalJobs : Nat) : Nat :=
  if totalJobs = 0 then 0
  else min (if concurrencyCfg ≤ 0 then 1 else concurrencyCfg.toNat) totalJobs

/-! ## pkg/dnsquery: DoQ response length check -/

/-- The 64 KiB DoQ response size limit of performDoQQuery. -/
def maxResponseSize : Nat := 64 * 1024

/-- The response length decoded from the 2-byte big-endian DoQ length
prefix: `int(lenBuf[0])<<8 | int(lenBuf[1])`. -/
def doqRespLen (b0 b1 : Nat) : Nat :=
  (b0 <<< 8) ||| b1

/-- The oversized-response condition of performDoQQuery:
`respLen > maxResponseSize`. -/
def doqRespTooLarge (respLen : Nat) : Bool :=
  decide (maxResponseSize < respLen)

/-! ## pkg/dnsquery: QUIC connection pool -/

/-- The pool ceiling per endpoint. -/
def maxPooledConnections : Nat := 10

/-- connectionTTL, in nanoseconds (30 s). -/
def connectionTTL : Int := 30000000000

/-- maxIdleTime, in nanoseconds (15 s). -/
def maxIdleTime : Int := 15000000000

/-- dnsquery.quicConnection; the `*quic.Conn` pointer becomes a session
identifier. -/
structure QuicConnection where
  sessionId : Nat
  lastUsed : Int
  createdAt : Int
  inUse : Bool
  deriving Repr, DecidableEq

/-- The pool's `map[string][]*quicConnection`, as a total function from
server addresses to connection lists (absent keys map to `[]`). -/
abbrev QuicPool := String → List QuicConnection

/-- The initial empty pool. -/
def emptyQuicPool : QuicPool := fun _ => []

/-- Point update of the pool map. -/
def updatePool (p : QuicPool) (addr : String) (conns : List QuicConnection) : QuicPool :=
  fun a => if a = addr then conns else p a

/-- The in-order scan of getConnection: the first connection that is not
in use and whose session context is not done is marked in use with a
fresh `lastUsed`; busy and closed connections are skipped and kept.
Session liveness is the oracle `closed`. -/
def acquireScan (closed : Nat → Bool) (now : Int) :
    List QuicConnection → List QuicConnection × Option Nat
  | [] => ([], none)
  | c :: rest =>
    if !c.inUse && !(closed c.sessionId) then
      ({ c with inUse := true, lastUsed := now } :: rest, some c.sessionId)
    else
      let r := acquireScan closed now rest
      (c :: r.1, r.2)

/-- What a getConnection call produced: a reused pooled session, a newly
dialed pooled session, a newly dialed transient (unpooled) session, or a
dial error. -/
inductive GetConnectionResult
  | reused (sessionId : Nat)
  | pooledNew (sessionId : Nat)
  | transient (sessionId : Nat)
  | dialFailed
  deriving Repr, DecidableEq

/-- dnsquery.quicConnectionPool.getConnection.  Dial success is the
oracle `dialOk` and `newSid` names the session a successful dial would
return. -/
def getConnection (p : QuicPool) (serverAddr : String) (closed : Nat → Bool)
    (dialOk : Bool) (newSid : Nat) (now : Int) : QuicPool × GetConnectionResult :=
  let scan := acquireScan closed now (p serverAddr)
  match scan.2 with
  | some sid => (updatePool p serverAddr scan.1, .reused sid)
  | none =>
    if maxPooledConnections ≤ (p serverAddr).length then
      (p, if dialOk then .transient newSid else .dialFailed)
    else if dialOk then
      (updatePool p serverAddr
        ((p serverAddr) ++
          [{ sessionId := newSid, lastUsed := now, createdAt := now, inUse := true }]),
        .pooledNew newSid)
    else (p, .dialFailed)

/-- dnsquery.quicConnectionPool.returnConnection on one address list: the
first pooled connection with the given session is marked available. -/
def markReturned (sid : Nat) (now : Int) : List QuicConnection → List QuicConnection
  | [] => []
  | c :: rest =>
    if c.sessionId = sid then { c with inUse := false, lastUsed := now } :: rest
    else c :: markReturned sid now rest

/-- dnsquery.quicConnectionPool.returnConnection. -/
def returnConnection (p : QuicPool) (serverAddr : String) (sid : Nat) (now : Int) : QuicPool :=
  updatePool p serverAddr (markReturned sid now (p serverAddr))

/-- The keep condition of cleanupStaleConnections: a connection survives
unless it is idle and either past its TTL or past the idle limit. -/
def keepConn (now : Int) (c : QuicConnection) : Bool :=
  !(!c.inUse && (decide (connectionTTL < now - c.createdAt) ||
     decide (maxIdleTime < now - c.lastUsed)))

/-- dnsquery.quicConnectionPool.cleanupStaleConnections. -/
def cleanupStaleConnections (p : QuicPool) (now : Int) : QuicPool :=
  fun a => (p a).filter (keepConn now)

/-- One pool operation together with its oracle inputs. -/
inductive PoolOp
  | get (addr : String) (closed : Nat → Bool) (dialOk : Bool) (newSid : Nat) (now : Int)
  | ret (addr : String) (sid : Nat) (now : Int)
  | cleanup (now : Int)

/-- Apply one pool operation to the pool state. -/
def applyPoolOp (p : QuicPool) : PoolOp → QuicPool
  | .get addr closed dialOk newSid now => (getConnection p addr closed dialOk newSid now).1
  | .ret addr sid now => returnConnection p addr sid now
  | .cleanup now => cleanupStaleConnections p now

/-- The pool state reached from the initial empty pool by a sequence of
operations. -/
def runPoolOps (ops : List PoolOp) : QuicPool :=
  ops.foldl applyPoolOp emptyQuicPool

/-! ## pkg/output: selection of the "best" server for the console summary -/

/-- The reliability threshold of findBestServer (percent). -/
def reliabilityThreshold : ℚ := 99

/-- The initial lowest-uncached-latency sentinel,
`time.Duration(math.MaxInt64)`. -/
def maxInt64Duration : Int := 9223372036854775807

/-- output.compareUncachedLatency: is `current` better than `best` on
uncached latency, given the running lowest uncached average. -/
def compareUncachedLatency (current best : ServerResult)
    (currentLowestUncached : Int) : Bool :=
  let hasUncachedCurrent := decide (0 < current.uncachedLatencies.length)
  let hasUncachedBest := decide (0 < best.uncachedLatencies.length)
  if hasUncachedCurrent && !hasUncachedBest then true
  else if !hasUncachedCurrent && hasUncachedBest then false
  else if hasUncachedCurrent && hasUncachedBest then
    decide (current.avgUncachedLatency < currentLowestUncached)
  else false

/-- output.compareCachedLatency: is `current` better than `best` on
cached latency. -/
def compareCachedLatency (current best : ServerResult) : Bool :=
  let hasCachedCurrent := decide (0 < current.cachedLatencies.length)
  let hasCachedBest := decide (0 < best.cachedLatencies.length)
  if hasCachedCurrent && !hasCachedBest then true
  else if !hasCachedCurrent && hasCachedBest then false
  else if hasCachedCurrent && hasCachedBest then
    decide (current.avgCachedLatency < best.avgCachedLatency)
  else false

/-- One iteration of the findBestServer loop over `(bestServer, lowestUncachedLatency)`. -/
def findBestServerStep (cfg : Config) (st : Option ServerResult × Int)
    (res : ServerResult) : Option ServerResult × Int :=
  if res.reliability < reliabilityThreshold then st
  else
    let isAccurate :=
      !(decide (cfg.accuracyCheckFile ≠ "") &&
        (match res.isAccurate with
         | some b => !b
         | none => false))
    if !isAccurate then st
    else
      match st.1 with
      | none =>
        (some res,
          if 0 < res.uncachedLatencies.length then res.avgUncachedLatency else st.2)
      | some best =>
        if compareUncachedLatency res best st.2 then
          (some res,
            if 0 < res.uncachedLatencies.length then res.avgUncachedLatency else st.2)
        else if compareCachedLatency res best then (some res, st.2)
        else st

/-- output.findBestServer: the endpoint reported on the console summary
"best" line. -/
def findBestServer (results : List ServerResult) (cfg : Config) : Option ServerResult :=
  (results.foldl (findBestServerStep cfg) (none, maxInt64Duration)).1

end DnsBench

namespace DnsBench

/-! ## Theorems for claims C7 and C9 -/

/-- C7: checkNXDOMAINHijack returns true if and only if the query returned
without error a response whose rcode is NOERROR and whose answer section
is non-empty; every NXDOMAIN response, NOERROR response with empty
answer, other rcode, and transport error yields false. -/
theorem c7_nxdomain_hijack_iff (result : QueryResult) :
    checkNXDOMAINHijack result = true ↔
      result.error = none ∧ ∃ resp, result.response = some resp ∧
        resp.rcode = rcodeSuccess ∧ resp.answer ≠ [] := by
  rcases result with ⟨lat, resp, err⟩
  rcases err with _ | e
  · rcases resp with _ | r
    · simp [checkNXDOMAINHijack]
    · rcases r with ⟨rc, ans, ad⟩
      simp only [checkNXDOMAINHijack, rcodeSuccess, rcodeNameError]
      constructor
      · intro h
        by_cases h3 : rc = 3
        · simp [h3] at h
        · by_cases h0 : rc = 0 ∧ 0 < ans.length
          · refine ⟨by trivial, ⟨rc, ans, ad⟩, by trivial, h0.1, ?_⟩
            have := h0.2
            rcases ans with _ | _ <;> simp_all
          · simp [h3, h0] at h
      · rintro ⟨-, r2, hr2, hc, hne⟩
        cases hr2
        simp only at hc hne
        have hlen : 0 < ans.length := by
          rcases ans with _ | _ <;> simp_all
        subst hc
        simp [hlen]
  · simp [checkNXDOMAINHijack]

/-- C9: the DoQ oversized-response branch is unreachable: a length decoded
from two bytes is at most 65535 and never exceeds the 64 KiB limit. -/
theorem c9_doq_oversize_unreachable (b0 b1 : Nat) (h0 : b0 < 256) (h1 : b1 < 256) :
    doqRespLen b0 b1 ≤ 65535 ∧ doqRespTooLarge (doqRespLen b0 b1) = false := by
  have hpow : (2 : Nat) ^ 16 = 65536 := by norm_num
  have hlen : doqRespLen b0 b1 < 65536 := by
    have hs : b0 <<< 8 < 2 ^ 16 := by
      rw [Nat.shiftLeft_eq]
      have hmul : b0 * 2 ^ 8 ≤ 255 * 2 ^ 8 :=
        Nat.mul_le_mul_right _ (by omega)
      have h8 : (2 : Nat) ^ 8 = 256 := by norm_num
      rw [h8] at hmul
      omega
    have hb1 : b1 < 2 ^ 16 := by rw [hpow]; omega
    have := Nat.or_lt_two_pow hs hb1
    rw [hpow] at this
    simpa [doqRespLen] using this
  refine ⟨by omega, ?_⟩
  simp only [doqRespTooLarge, maxResponseSize, decide_eq_false_iff_not, not_lt]
  omega

/-- Witness for C9 at the maximal two-byte prefix 0xff 0xff. -/
theorem c9_witness :
    doqRespLen 255 255 ≤ 65535 ∧ doqRespTooLarge (doqRespLen 255 255) = false :=
  c9_doq_oversize_unreachable 255 255 (by decide) (by decide)

/-! ## Theorems for claim C1 -/

/-- An accumulator with all probe fields still absent. -/
def freshServerResult : ServerResult :=
  { serverAddress := "1.1.1.1:53" }

/-- A probe job outcome whose query failed with a transport error. -/
def erroredQueryResult : QueryResult :=
  { latency := 0, response := none, error := some "query timed out" }

/-- C1 counterexample: processing an errored probe job does not leave the
tri-valued fields absent — the DNSSEC, NXDOMAIN and accuracy fields become
present-and-false and the rebinding field becomes present-and-true. -/
theorem c1_counterexample_error_sets_fields :
    (processCheckResult {} freshServerResult "dnssec" erroredQueryResult).supportsDNSSEC
        = some false ∧
      (processCheckResult {} freshServerResult "nxdomain" erroredQueryResult).hijacksNXDOMAIN
        = some false ∧
      (processCheckResult {} freshServerResult "rebinding" erroredQueryResult).blocksRebinding
        = some true ∧
      (processCheckResult {} freshServerResult "accuracy" erroredQueryResult).isAccurate
        = some false ∧
      freshServerResult.supportsDNSSEC = none ∧
      freshServerResult.hijacksNXDOMAIN = none ∧
      freshServerResult.blocksRebinding = none ∧
      freshServerResult.isAccurate = none := by
  decide

/-- C1 amended: on a probe-job error the DNSSEC, NXDOMAIN and accuracy
fields are set to present-and-false, the rebinding field to
present-and-true (each check predicate's error verdict); only the dotcom
latency field is left unchanged on error. -/
theorem c1_amended_error_verdicts (cfg : Config) (sr : ServerResult)
    (result : QueryResult) (h : result.error.isSome) :
    (processCheckResult cfg sr "dnssec" result).supportsDNSSEC = some false ∧
      (processCheckResult cfg sr "nxdomain" result).hijacksNXDOMAIN = some false ∧
      (processCheckResult cfg sr "rebinding" result).blocksRebinding = some true ∧
      (processCheckResult cfg sr "accuracy" result).isAccurate = some false ∧
      (processCheckResult cfg sr "dotcom" result).dotcomLatency = sr.dotcomLatency := by
  obtain ⟨e, he⟩ := Option.isSome_iff_exists.mp h
  refine ⟨?_, ?_, ?_, ?_, ?_⟩ <;>
    simp [processCheckResult, checkADFlag, checkNXDOMAINHijack,
      checkRebindingProtection, checkResponseAccuracy, he]

/-- Witness for the amended C1 at a concrete errored result. -/
theorem c1_amended_witness :
    (processCheckResult {} freshServerResult "dnssec" erroredQueryResult).supportsDNSSEC
        = some false ∧
      (processCheckResult {} freshServerResult "nxdomain" erroredQueryResult).hijacksNXDOMAIN
        = some false ∧
      (processCheckResult {} freshServerResult "rebinding" erroredQueryResult).blocksRebinding
        = some true ∧
      (processCheckResult {} freshServerResult "accuracy" erroredQueryResult).isAccurate
        = some false ∧
      (processCheckResult {} freshServerResult "dotcom" erroredQueryResult).dotcomLatency
        = freshServerResult.dotcomLatency :=
  c1_amended_error_verdicts {} freshServerResult erroredQueryResult (by decide)

/-! ## Theorems for claim C6 -/

/-- Rounding half away from zero fixes every integer. -/
theorem goRound_intCast (n : Int) : goRound (n : ℚ) = n := by
  have hhalf : ⌊(1 : ℚ)/2⌋ = 0 := by
    rw [Int.floor_eq_zero_iff]
    constructor <;> norm_num
  unfold goRound
  split
  · have hn : (-(n : ℚ) + 1/2) = ((-n : Int) : ℚ) + 1/2 := by push_cast; ring
    rw [hn, add_comm, Int.floor_add_int, hhalf]
    omega
  · rw [add_comm, Int.floor_add_int, hhalf]
    omega

/-- Unfolding equation for `calculateStdDev` above the two-sample
threshold. -/
theorem calculateStdDev_eq (latencies : List Int) (average : Int)
    (h : ¬ latencies.length < 2) :
    calculateStdDev latencies average =
      goRoundReal (Real.sqrt
        ((latencies.map (fun (l : Int) => ((l : ℝ) - ((average : Int) : ℝ)) ^ 2)).sum /
          ((latencies.length : ℝ) - 1))) := by
  unfold calculateStdDev
  rw [if_neg h]

/-- Rounding half away from zero sends zero to zero (real version). -/
theorem goRoundReal_zero : goRoundReal 0 = 0 := by
  unfold goRoundReal
  rw [if_neg (lt_irrefl 0), zero_add]
  rw [Int.floor_eq_zero_iff]
  constructor <;> norm_num

/-- The rounded square root of 20000 is 141 (the sample-deviation value
for the two-point list `[0, 200]`; the population formula would give 100). -/
theorem goRoundReal_sqrt_20000 : goRoundReal (Real.sqrt 20000) = 141 := by
  unfold goRoundReal
  rw [if_neg (not_lt.mpr (Real.sqrt_nonneg _))]
  rw [Int.floor_eq_iff]
  have hlow : (140.5 : ℝ) ≤ Real.sqrt 20000 := by
    rw [Real.le_sqrt' (by norm_num)]
    norm_num
  have hhigh : Real.sqrt 20000 < 141.5 := by
    rw [Real.sqrt_lt' (by norm_num)]
    norm_num
  constructor
  · push_cast
    linarith
  · push_cast
    linarith

/-- C6: the mean of a singleton is the sample itself; the standard
deviation of fewer than two samples is 0 (reported unavailable); the
deviation of two or more samples is exactly the spec's sample standard
deviation with `n-1` denominator (witnessed also by the two-point list
`[0, 200]`, where the `n-1` form gives 141 rather than the population
value 100); and two or more identical samples give exactly 0. -/
theorem c6_latency_statistics :
    (∀ x : Int, calculateAverage [x] = x) ∧
      (∀ (xs : List Int) (avg : Int), xs.length < 2 → calculateStdDev xs avg = 0) ∧
      (∀ (xs : List Int) (avg : Int), calculateStdDev xs avg = specSampleStdDev xs avg) ∧
      (∀ (x : Int) (n : Nat), 2 ≤ n →
        calculateAverage (List.replicate n x) = x ∧
          calculateStdDev (List.replicate n x) (calculateAverage (List.replicate n x)) = 0) ∧
      calculateStdDev [0, 200] 100 = 141 := by
  have havg_replicate : ∀ (x : Int) (n : Nat), 1 ≤ n →
      calculateAverage (List.replicate n x) = x := by
    intro x n hn
    unfold calculateAverage
    rw [List.length_replicate, if_neg (by omega)]
    have hsum : (List.replicate n x).sum = (n : Int) * x := by
      simp [List.sum_replicate, nsmul_eq_mul]
    rw [hsum]
    have hq : (((n : Int) * x : Int) : ℚ) / ((n : ℕ) : ℚ) = (x : ℚ) := by
      have hne : n ≠ 0 := by omega
      have hn0 : ((n : ℕ) : ℚ) ≠ 0 := by exact_mod_cast hne
      push_cast
      field_simp
    rw [hq, goRound_intCast]
  refine ⟨?_, ?_, ?_, ?_, ?_⟩
  · intro x
    have := havg_replicate x 1 (by omega)
    simpa using this
  · intro xs avg h
    unfold calculateStdDev
    rw [if_pos h]
  · intro xs avg
    unfold calculateStdDev specSampleStdDev
    by_cases h : xs.length < 2
    · rw [if_pos h, if_neg (by omega)]
    · rw [if_neg h, if_pos (by omega)]
  · intro x n hn
    refine ⟨havg_replicate x n (by omega), ?_⟩
    rw [havg_replicate x n (by omega)]
    rw [calculateStdDev_eq _ _ (by rw [List.length_replicate]; omega)]
    rw [List.map_replicate]
    simp [List.sum_replicate, sub_self, goRoundReal_zero]
  · rw [calculateStdDev_eq [0, 200] 100 (by norm_num)]
    have h20000 :
        ((([0, 200] : List Int).map (fun (l : Int) => ((l : ℝ) - ((100 : Int) : ℝ)) ^ 2)).sum /
          ((([0, 200] : List Int).length : ℝ) - 1)) = 20000 := by
      norm_num
    rw [h20000, goRoundReal_sqrt_20000]

/-- Witness for C6: singleton mean, sub-two-sample deviation, the
spec-formula agreement at a two-point list, identical samples, and the
concrete two-point value. -/
theorem c6_witness :
    calculateAverage [7] = 7 ∧
      calculateStdDev [5] 5 = 0 ∧
      calculateStdDev [3, 9] 6 = specSampleStdDev [3, 9] 6 ∧
      (calculateAverage (List.replicate 4 12) = 12 ∧
        calculateStdDev (List.replicate 4 12) (calculateAverage (List.replicate 4 12)) = 0) ∧
      calculateStdDev [0, 200] 100 = 141 :=
  ⟨c6_latency_statistics.1 7,
    c6_latency_statistics.2.1 [5] 5 (by decide),
    c6_latency_statistics.2.2.1 [3, 9] 6,
    c6_latency_statistics.2.2.2.1 12 4 (by decide),
    c6_latency_statistics.2.2.2.2⟩

/-! ## Theorems for claims C5 and C10 -/

/-- C5: for every non-negative total query count the split is
`(floor(N/2), ceil(N/2))` — in particular `(0,1)`, `(1,1)`, `(1,2)` for
`N = 1, 2, 3` — and the latency scheduler enqueues exactly that many
cached and uncached jobs for each endpoint. -/
theorem c5_latency_split (N : Int) (hN : 0 ≤ N) :
    calculateLatencyQueryCounts N = (N / 2, (N + 1) / 2) ∧
      (N / 2) + (N + 1) / 2 = N ∧
      (∀ (server : ServerInfo) (cachedDomain : String) (uncachedName : Nat → String),
        ((latencyJobsForServer server cachedDomain uncachedName
            (calculateLatencyQueryCounts N).1.toNat
            (calculateLatencyQueryCounts N).2.toNat).countP
          (fun j => j.queryType = LatencyQueryType.cached)) = (N / 2).toNat ∧
        ((latencyJobsForServer server cachedDomain uncachedName
            (calculateLatencyQueryCounts N).1.toNat
            (calculateLatencyQueryCounts N).2.toNat).countP
          (fun j => j.queryType = LatencyQueryType.uncached)) = ((N + 1) / 2).toNat) := by
  have hcalc : calculateLatencyQueryCounts N = (N / 2, (N + 1) / 2) := by
    unfold calculateLatencyQueryCounts
    split
    · have : N = 0 := by omega
      subst this
      decide
    · split
      · rename_i h1
        subst h1
        decide
      · split
        · rename_i h2
          subst h2
          decide
        · split
          · rename_i h3
            subst h3
            decide
          · show (N / 2, N - N / 2) = (N / 2, (N + 1) / 2)
            simp only [Prod.mk.injEq]
            exact ⟨trivial, by omega⟩
  refine ⟨hcalc, by omega, ?_⟩
  intro server cachedDomain uncachedName
  constructor
  · rw [hcalc]
    simp [latencyJobsForServer, List.countP_append, List.countP_map,
      List.countP_replicate, Function.comp_def]
  · rw [hcalc]
    simp [latencyJobsForServer, List.countP_append, List.countP_map,
      List.countP_replicate, Function.comp_def]

/-- Witness for C5 at `N = 5`: split `(2, 3)` and job counts `2`/`3`. -/
theorem c5_witness :
    calculateLatencyQueryCounts 5 = (5 / 2, (5 + 1) / 2) ∧
      (5 / 2 : Int) + (5 + 1) / 2 = 5 ∧
      (∀ (server : ServerInfo) (cachedDomain : String) (uncachedName : Nat → String),
        ((latencyJobsForServer server cachedDomain uncachedName
            (calculateLatencyQueryCounts 5).1.toNat
            (calculateLatencyQueryCounts 5).2.toNat).countP
          (fun j => j.queryType = LatencyQueryType.cached)) = ((5 : Int) / 2).toNat ∧
        ((latencyJobsForServer server cachedDomain uncachedName
            (calculateLatencyQueryCounts 5).1.toNat
            (calculateLatencyQueryCounts 5).2.toNat).countP
          (fun j => j.queryType = LatencyQueryType.uncached)) = (((5 : Int) + 1) / 2).toNat) :=
  c5_latency_split 5 (by decide)

/-- C10: for every total query count below 1 — including every negative
value — the split is `(0, 0)`, the latency phase enqueues no jobs, and no
workers are spawned. -/
theorem c10_nonpositive_queries_noop (N : Int) (hN : N < 1)
    (servers : List ServerInfo) (cachedDomain : String)
    (uncachedName : Nat → String) (concurrencyCfg : Int) :
    calculateLatencyQueryCounts N = (0, 0) ∧
      runLatencyBenchmarkJobs servers N cachedDomain uncachedName = [] ∧
      latencyWorkers concurrencyCfg
        (runLatencyBenchmarkJobs servers N cachedDomain uncachedName).length = 0 := by
  have hc : calculateLatencyQueryCounts N = (0, 0) := by
    unfold calculateLatencyQueryCounts
    simp [hN]
  have hjobs : runLatencyBenchmarkJobs servers N cachedDomain uncachedName = [] := by
    unfold runLatencyBenchmarkJobs
    rw [hc]
    simp
  exact ⟨hc, hjobs, by rw [hjobs]; simp [latencyWorkers]⟩

/-! ## Theorem for claim C2 -/

/-- A fully reliable endpoint with uncached mean 10ms and cached mean 5ms
(metrics consistent with its latency lists). -/
def srvA : ServerResult :=
  { serverAddress := "a", cachedLatencies := [5000000, 5000000],
    uncachedLatencies := [10000000, 10000000], totalQueries := 4,
    avgCachedLatency := 5000000, avgUncachedLatency := 10000000,
    reliability := 100 }

/-- A fully reliable endpoint with uncached mean 20ms and cached mean 1ms. -/
def srvB : ServerResult :=
  { serverAddress := "b", cachedLatencies := [1000000, 1000000],
    uncachedLatencies := [20000000, 20000000], totalQueries := 4,
    avgCachedLatency := 1000000, avgUncachedLatency := 20000000,
    reliability := 100 }

/-- C2, evaluated at the failing input: both endpoints pass the filter and
have uncached samples, `srvA` has the strictly smaller uncached mean, yet
findBestServer returns `srvB` — the cached comparison is applied even
though the uncached comparison was strictly lost, not tied. -/
theorem c2_best_server_bug_eval :
    findBestServer [srvA, srvB] {} = some srvB ∧
      srvA.avgUncachedLatency < srvB.avgUncachedLatency ∧
      reliabilityThreshold ≤ srvA.reliability ∧
      reliabilityThreshold ≤ srvB.reliability ∧
      ({} : Config).accuracyCheckFile = "" ∧
      0 < srvA.uncachedLatencies.length ∧ 0 < srvB.uncachedLatencies.length := by
  decide

/-! ## Theorems for claims C3 and C4 -/

/-- C3, evaluated at the failing input "1.1.1.1:bad": Go's
net.SplitHostPort accepts the non-numeric port token, so the bad-port
salvage branch never runs for a plain host:port input — the parser
succeeds but keeps the unparseable port in the address and prints no
warning, instead of substituting the transport default port 53.  (The
salvage branch is reachable only for inputs SplitHostPort rejects, such
as the multi-colon "host:1:2".) -/
theorem c3_bad_port_kept_eval :
    goSplitHostPort "1.1.1.1:bad" = .ok ("1.1.1.1", "bad") ∧
      parseServerString "1.1.1.1:bad" =
        .ok ⟨{ Address := "1.1.1.1:bad", Protocol := .udp, Hostname := "1.1.1.1" }, false⟩ ∧
      parseServerString "host:1:2" =
        .ok ⟨{ Address := "host:53", Protocol := .udp, Hostname := "host" }, true⟩ := by
  refine ⟨?_, ?_, ?_⟩ <;> rfl

/-- C4, evaluated at the failing input "bad-hostname": the name is not an
IP literal, has no dot and is not "localhost", so the claimed rule (and
`specValidHostname`) rejects it, but isValidHostname accepts it through
its single-label branch, and parseServerString consequently succeeds
where the repository's own test expects an error. -/
theorem c4_dotless_hostname_accepted_eval :
    isValidHostname "bad-hostname" = true ∧
      goParseIP "bad-hostname" = none ∧
      specValidHostname "bad-hostname" = false ∧
      parseServerString "bad-hostname" =
        .ok ⟨{ Address := "bad-hostname:53", Protocol := .udp,
               Hostname := "bad-hostname" }, false⟩ := by
  refine ⟨?_, ?_, ?_, ?_⟩ <;> rfl

/-! ## Theorems for claim C8 -/

/-- The acquisition scan preserves the number of pooled connections. -/
theorem acquireScan_length (closed : Nat → Bool) (now : Int) (l : List QuicConnection) :
    (acquireScan closed now l).1.length = l.length := by
  induction l with
  | nil => rfl
  | cons c rest ih =>
    unfold acquireScan
    by_cases h : !c.inUse && !(closed c.sessionId)
    · simp [h]
    · simp [h, ih]

/-- When every pooled connection is busy or closed, the scan finds
nothing and leaves the list unchanged. -/
theorem acquireScan_noHit (closed : Nat → Bool) (now : Int) (l : List QuicConnection)
    (h : ∀ c ∈ l, c.inUse = true ∨ closed c.sessionId = true) :
    acquireScan closed now l = (l, none) := by
  induction l with
  | nil => rfl
  | cons c rest ih =>
    have hcond : (!c.inUse && !(closed c.sessionId)) = false := by
      rcases h c (List.mem_cons_self _ _) with hc | hc <;> simp [hc]
    unfold acquireScan
    rw [hcond]
    simp [ih (fun d hd => h d (List.mem_cons_of_mem _ hd))]

/-- returnConnection preserves the number of pooled connections. -/
theorem markReturned_length (sid : Nat) (now : Int) (l : List QuicConnection) :
    (markReturned sid now l).length = l.length := by
  induction l with
  | nil => rfl
  | cons c rest ih =>
    unfold markReturned
    by_cases h : c.sessionId = sid <;> simp [h, ih]

/-- Every pool operation preserves the per-address pool ceiling. -/
theorem applyPoolOp_length (p : QuicPool) (op : PoolOp)
    (h : ∀ a, (p a).length ≤ maxPooledConnections) (addr : String) :
    ((applyPoolOp p op) addr).length ≤ maxPooledConnections := by
  cases op with
  | get a closed dialOk newSid now =>
    simp only [applyPoolOp, getConnection]
    cases hscan : (acquireScan closed now (p a)).2 with
    | some sid =>
      by_cases haddr : addr = a
      · subst haddr
        simp [updatePool, acquireScan_length, h addr]
      · simp [updatePool, haddr, h addr]
    | none =>
      by_cases hfull : maxPooledConnections ≤ (p a).length
      · simp [hfull, h addr]
      · by_cases hd : dialOk
        · by_cases haddr : addr = a
          · subst haddr
            simp [updatePool, hfull, hd]
            omega
          · simp [updatePool, hfull, hd, haddr, h addr]
        · simp [hfull, hd, h addr]
  | ret a sid now =>
    simp only [applyPoolOp, returnConnection, updatePool]
    by_cases haddr : addr = a
    · subst haddr
      simp [markReturned_length, h addr]
    · simp [haddr, h addr]
  | cleanup now =>
    simp only [applyPoolOp, cleanupStaleConnections]
    exact le_trans (List.length_filter_le _ _) (h addr)

/-- The pool ceiling holds in every state reachable from the empty pool. -/
theorem runPoolOps_bound (ops : List PoolOp) (addr : String) :
    ((runPoolOps ops) addr).length ≤ maxPooledConnections := by
  suffices hgen : ∀ (p : QuicPool), (∀ a, (p a).length ≤ maxPooledConnections) →
      ∀ a, ((ops.foldl applyPoolOp p) a).length ≤ maxPooledConnections by
    exact hgen emptyQuicPool (fun a => by simp [emptyQuicPool, maxPooledConnections]) addr
  induction ops with
  | nil =>
    intro p hp a
    exact hp a
  | cons op rest ih =>
    intro p hp a
    exact ih (applyPoolOp p op) (fun a2 => applyPoolOp_length p op hp a2) a

/-- The operation sequence reaching a pool of ten connections for
address "a" with session 0 returned to the pool (idle and open). -/
def c8ops : List PoolOp :=
  (List.range 10).map (fun i => PoolOp.get "a" (fun _ => false) true i 0) ++
    [PoolOp.ret "a" 0 1]

/-- C8 counterexample: in a reachable state with ten pooled sessions for
the address, a getConnection call need not return a transient session —
with an idle open session pooled it reuses that pooled session, even
though the dial oracle would have succeeded. -/
theorem c8_counterexample_reuse_at_capacity :
    ¬ (∀ (p : QuicPool) (addr : String) (closed : Nat → Bool) (dialOk : Bool)
        (newSid : Nat) (now : Int),
        maxPooledConnections ≤ (p addr).length →
        (getConnection p addr closed dialOk newSid now).2 =
          GetConnectionResult.transient newSid) := by
  intro hclaim
  have h10 : maxPooledConnections ≤ ((runPoolOps c8ops) "a").length := by decide
  have happ := hclaim (runPoolOps c8ops) "a" (fun _ => false) true 99 50 h10
  have heval : (getConnection (runPoolOps c8ops) "a" (fun _ => false) true 99 50).2 =
      GetConnectionResult.reused 0 := by decide
  rw [heval] at happ
  exact absurd happ (by decide)

/-- C8 amended: the pooled-session count per address never exceeds ten in
any reachable pool state; and a getConnection call made with ten pooled
sessions, none of which is available (each busy or closed), leaves the
pool unchanged and — when the dial succeeds — returns a transient session
that is not pooled. -/
theorem c8_amended_pool_bound :
    (∀ (ops : List PoolOp) (addr : String),
        ((runPoolOps ops) addr).length ≤ maxPooledConnections) ∧
      ∀ (p : QuicPool) (addr : String) (closed : Nat → Bool) (dialOk : Bool)
        (newSid : Nat) (now : Int),
        maxPooledConnections ≤ (p addr).length →
        (∀ c ∈ p addr, c.inUse = true ∨ closed c.sessionId = true) →
        (getConnection p addr closed dialOk newSid now).1 = p ∧
          (dialOk = true →
            (getConnection p addr closed dialOk newSid now).2 =
              GetConnectionResult.transient newSid) := by
  constructor
  · exact runPoolOps_bound
  · intro p addr closed dialOk newSid now hfull hbusy
    have hscan := acquireScan_noHit closed now (p addr) hbusy
    constructor
    · simp [getConnection, hscan, hfull]
    · intro hd
      simp [getConnection, hscan, hfull, hd]

/-- A pool with ten busy sessions for address "a". -/
def fullBusyPool : QuicPool :=
  fun a =>
    if a = "a" then
      (List.range 10).map
        (fun i => { sessionId := i, lastUsed := 0, createdAt := 0, inUse := true })
    else []

/-- Witness for the amended C8: the bound instantiated after the concrete
operation sequence, and the overflow behavior at a concrete full pool of
busy sessions. -/
theorem c8_amended_witness :
    ((runPoolOps c8ops) "a").length ≤ maxPooledConnections ∧
      (getConnection fullBusyPool "a" (fun _ => false) true 42 5).1 = fullBusyPool ∧
        (true = true →
          (getConnection fullBusyPool "a" (fun _ => false) true 42 5).2 =
            GetConnectionResult.transient 42) :=
  ⟨c8_amended_pool_bound.1 c8ops "a",
    c8_amended_pool_bound.2 fullBusyPool "a" (fun _ => false) true 42 5
      (by decide) (by decide)⟩

/-- A sample UDP endpoint used by concrete instantiations. -/
def sampleUdpServer : ServerInfo :=
  { Address := "1.1.1.1:53", Protocol := .udp, Hostname := "1.1.1.1" }

/-- Witness for C10 at `N = -3` with one endpoint. -/
theorem c10_witness :
    calculateLatencyQueryCounts (-3) = (0, 0) ∧
      runLatencyBenchmarkJobs [sampleUdpServer] (-3) "example.com" (fun _ => "x.net.") = [] ∧
      latencyWorkers 4
        (runLatencyBenchmarkJobs [sampleUdpServer] (-3) "example.com"
          (fun _ => "x.net.")).length = 0 :=
  c10_nonpositive_queries_noop (-3) (by decide) _ _ _ 4

end DnsBench
